import Mathlib

/-!
Shallow embedding of the LLVM obfuscation passes
(flattening, bogus control flow, opaque predicates, instruction
substitution, string encryption, configuration, eligibility predicate)
together with theorems checking the specification's claims against them.

Conventions of the embedding:
* i32 values are natural numbers reduced modulo 2^32 where overflow matters.
* An LLVM `IRBuilder` constructed from a `BasicBlock*` inserts at the END
  of that block (after any existing terminator); an `IRBuilder` constructed
  from an `Instruction*` inserts immediately BEFORE that instruction.
  Both behaviours are modelled explicitly below.
* SSA values are named by natural-number ids; blocks by natural-number ids.
-/

namespace Obf

/-- An operand value: an i32 literal or a reference to an SSA register. -/
inductive Val where
  | const : Nat → Val
  | reg : Nat → Val
deriving DecidableEq

/-- The instructions used by the passes. The first `Nat` of a
value-producing instruction is the id of the SSA register it defines. -/
inductive Instr where
  | alloca : Nat → Instr
  | store : Val → Val → Instr
  | load : Nat → Val → Instr
  | icmpEq : Nat → Val → Val → Instr
  | add : Nat → Val → Val → Instr
  | sub : Nat → Val → Val → Instr
  | mul : Nat → Val → Val → Instr
  | shl : Nat → Val → Val → Instr
  | br : Nat → Instr
  | condbr : Val → Nat → Nat → Instr
  | switch : Val → Option Nat → List (Nat × Nat) → Instr
  | ret : Val → Instr
deriving DecidableEq

/-- Terminator test, as in LLVM `Instruction::isTerminator`. -/
def Instr.isTerminator : Instr → Bool
  | .br _ => true
  | .condbr _ _ _ => true
  | .switch _ _ _ => true
  | .ret _ => true
  | _ => false

/-- The SSA register defined by an instruction, when it defines one. -/
def Instr.defId : Instr → Option Nat
  | .alloca i => some i
  | .load i _ => some i
  | .icmpEq i _ _ => some i
  | .add i _ _ => some i
  | .sub i _ _ => some i
  | .mul i _ _ => some i
  | .shl i _ _ => some i
  | _ => none

/-- A basic block: an id and its ordered instruction list. -/
structure BasicBlock where
  bid : Nat
  instrs : List Instr
deriving DecidableEq

/-- A function: its blocks in program order; the first block is the entry
block (`Function::getEntryBlock`). -/
structure Func where
  blocks : List BasicBlock
deriving DecidableEq

/-- Number of terminator instructions contained in a block. A well formed
LLVM block has exactly one, as its last instruction. -/
def countTerminators (bb : BasicBlock) : Nat :=
  (bb.instrs.filter Instr.isTerminator).length

/-- Find a block of a function by id. -/
def findBlock (F : Func) (b : Nat) : Option BasicBlock :=
  F.blocks.find? (fun bb => bb.bid == b)

/-- Append instructions at the end of block `b`, which is what an
`IRBuilder` constructed from a `BasicBlock*` does (insertion point
`BB->end()`, i.e. after any existing terminator). -/
def appendToBlock (F : Func) (b : Nat) (is : List Instr) : Func :=
  { blocks := F.blocks.map (fun bb =>
      if bb.bid = b then { bb with instrs := bb.instrs ++ is } else bb) }

/-- Largest SSA id defined in a block (0 when none). -/
def blockMaxId (bb : BasicBlock) : Nat :=
  bb.instrs.foldl (fun m i => match i.defId with
    | some k => max m k
    | none => m) 0

/-- Largest SSA id defined in a function; fresh ids are taken above it. -/
def maxValId (F : Func) : Nat :=
  F.blocks.foldl (fun m bb => max m (blockMaxId bb)) 0

/-- Largest block id of a function; fresh block ids are taken above it. -/
def maxBid (F : Func) : Nat :=
  F.blocks.foldl (fun m bb => max m bb.bid) 0

/-! ## Flattening (src/src/passes/control_flow/flattening.cpp) -/

/-- FlatteningPass::createStateVariable: an IRBuilder on the entry block
appends (at the block end) an alloca for the state variable and a store
of the constant 0 into it.  `sv` is the id of the alloca's result. -/
def createStateVariable (F : Func) (sv : Nat) : Func :=
  match F.blocks.head? with
  | none => F
  | some e => appendToBlock F e.bid [Instr.alloca sv, Instr.store (Val.const 0) (Val.reg sv)]

/-- FlatteningPass::createDispatcherBlock: a new block holding a load of
the state variable and a switch over it with a null default and no cases
yet. -/
def createDispatcherBlock (F : Func) (d sv ld : Nat) : Func :=
  { blocks := F.blocks ++
      [{ bid := d, instrs := [Instr.load ld (Val.reg sv),
                              Instr.switch (Val.reg ld) none []] }] }

/-- The blocks the restructuring loop collects: every block of the
function except the entry block and the dispatcher, in program order. -/
def collectBlocks (F : Func) (d : Nat) : List BasicBlock :=
  match F.blocks.head? with
  | none => []
  | some e => F.blocks.filter (fun bb => bb.bid != e.bid && bb.bid != d)

/-- Position of the block with id `b` in a block list (`none` if absent). -/
def stateIndex : List BasicBlock → Nat → Option Nat
  | [], _ => none
  | bb :: rest, b =>
      if bb.bid = b then some 0 else (stateIndex rest b).map (· + 1)

/-- The per-block rewrite of FlatteningPass::restructureBasicBlocks: an
IRBuilder positioned at the block's terminator inserts, before it, a store
of the constant `state` into the state variable and a branch to the
dispatcher; the original terminator is then erased.  This models the
source for blocks whose last instruction is their terminator (on a block
with no terminator the source dereferences a null `getTerminator()`). -/
def restructureBlock (bb : BasicBlock) (state sv d : Nat) : BasicBlock :=
  { bb with instrs := bb.instrs.dropLast ++
      [Instr.store (Val.const state) (Val.reg sv), Instr.br d] }

/-- Add cases to the switch terminating block `d`. -/
def addSwitchCases (F : Func) (d : Nat) (newCases : List (Nat × Nat)) : Func :=
  { blocks := F.blocks.map (fun bb =>
      if bb.bid = d then
        { bb with instrs := bb.instrs.map (fun i =>
            match i with
            | Instr.switch v df cs => Instr.switch v df (cs ++ newCases)
            | i => i) }
      else bb) }

/-- FlatteningPass::restructureBasicBlocks: rewrite every collected block
with its 1-based state number, then register the `(i+1 → blocks[i])`
cases in the dispatcher's switch. -/
def restructureBasicBlocks (F : Func) (d sv : Nat) : Func :=
  let bs := collectBlocks F d
  let F1 : Func := { blocks := F.blocks.map (fun bb =>
      match stateIndex bs bb.bid with
      | some i => restructureBlock bb (i + 1) sv d
      | none => bb) }
  addSwitchCases F1 d (bs.enum.map (fun p => (p.1 + 1, p.2.bid)))

/-- FlatteningPass::runOnFunction: skip functions with at most one block,
otherwise allocate the state variable, create the dispatcher and
restructure; returns the modification flag together with the function. -/
def flatteningRunOnFunction (F : Func) : Bool × Func :=
  if F.blocks.length ≤ 1 then (false, F)
  else
    let sv := maxValId F + 1
    let F1 := createStateVariable F sv
    let d := maxBid F1 + 1
    let ld := maxValId F1 + 1
    let F2 := createDispatcherBlock F1 d sv ld
    (true, restructureBasicBlocks F2 d sv)

/-- The state number a relocated block stores before branching: matches a
block whose final two instructions are a store of a constant to the state
variable followed by an unconditional branch to `d`. -/
def storedStateBeforeBr (bb : BasicBlock) (d : Nat) : Option Nat :=
  match bb.instrs.reverse with
  | Instr.br t :: Instr.store (Val.const n) _ :: _ =>
      if t = d then some n else none
  | _ => none

/-- The block the dispatcher's switch sends state `n` to. -/
def switchTargetFor (F : Func) (d n : Nat) : Option Nat :=
  match findBlock F d with
  | some bb =>
      match bb.instrs.reverse with
      | Instr.switch _ _ cases :: _ =>
          (cases.find? (fun c => c.1 == n)).map (fun c => c.2)
      | _ => none
  | none => none

/-- Successor block ids of a block's final (terminator) instruction. -/
def blockSuccessors (bb : BasicBlock) : List Nat :=
  match bb.instrs.reverse with
  | Instr.br t :: _ => [t]
  | Instr.condbr _ a b :: _ => [a, b]
  | Instr.switch _ df cs :: _ =>
      (match df with | some t => [t] | none => []) ++ cs.map (fun c => c.2)
  | _ => []

/-! ## Bogus control flow (src/src/passes/control_flow/bogus_control_flow.cpp) -/

/-- BogusControlFlowPass::addBogusControlFlow applied to block `b`:
create a bogus block (two dead arithmetic instructions and a branch back
to `b`), then an IRBuilder constructed from `&BB` — whose insertion point
is the END of the block, after the existing terminator — appends an
equality comparison of the constant 0 with itself and
`CreateCondBr(cond, bogusBB, &BB)`, whose first target (the TRUE arm) is
the bogus block and whose second target (the FALSE arm) is `b` itself. -/
def addBogusControlFlow (F : Func) (b : Nat) : Func :=
  let bogusId := maxBid F + 1
  let f1 := maxValId F + 1
  let f2 := f1 + 1
  let c := f2 + 1
  let Fb : Func := { blocks := F.blocks ++
      [{ bid := bogusId,
         instrs := [Instr.add f1 (Val.const 0) (Val.const 0),
                    Instr.mul f2 (Val.reg f1) (Val.const 1),
                    Instr.br b] }] }
  appendToBlock Fb b
    [Instr.icmpEq c (Val.const 0) (Val.const 0),
     Instr.condbr (Val.reg c) bogusId b]

/-- The block a conditional branch transfers to, given the runtime value
of its condition: the first target when true, the second when false. -/
def condbrTakenTarget (c : Bool) (t f : Nat) : Nat :=
  if c then t else f

/-- The conditional branch BogusControlFlow appended to a block, read
back off the block: the pair of branch targets (true arm, false arm) and
the runtime value of its guard, which compares two literal constants. -/
def injectedBranchInfo (bb : BasicBlock) : Option (Nat × Nat × Bool) :=
  match bb.instrs.reverse with
  | Instr.condbr (Val.reg c) t f :: Instr.icmpEq c2 (Val.const x) (Val.const y) :: _ =>
      if c = c2 then some (t, f, decide (x = y)) else none
  | _ => none

/-! ## Opaque predicates (src/src/passes/instruction/opaque_predicates.cpp) -/

/-- OpaquePredicatesPass::addOpaquePredicate applied to block `b`:
create a fake block, then append (again at the END of `b`, after its
terminator) the always-true comparison 42 == 42 and
`CreateCondBr(cond, &BB, fakeBB)`: true arm `b` itself, false arm the
fake block. -/
def addOpaquePredicate (F : Func) (b : Nat) : Func :=
  let fakeId := maxBid F + 1
  let f1 := maxValId F + 1
  let f2 := f1 + 1
  let c := f2 + 1
  let Fb : Func := { blocks := F.blocks ++
      [{ bid := fakeId,
         instrs := [Instr.add f1 (Val.const 0) (Val.const 0),
                    Instr.mul f2 (Val.reg f1) (Val.const 1),
                    Instr.br b] }] }
  appendToBlock Fb b
    [Instr.icmpEq c (Val.const 42) (Val.const 42),
     Instr.condbr (Val.reg c) b fakeId]

/-! ## Straight-line evaluation of arithmetic instruction sequences

Used to settle the instruction-substitution claims: i32 arithmetic with
wraparound modulo 2^32. -/

/-- The i32 modulus. -/
def W : Nat := 2 ^ 32

/-- i32 addition with wraparound. -/
def add32 (a b : Nat) : Nat := (a + b) % W

/-- i32 subtraction with wraparound. -/
def sub32 (a b : Nat) : Nat := (a + (W - b % W)) % W

/-- i32 multiplication with wraparound. -/
def mul32 (a b : Nat) : Nat := (a * b) % W

/-- i32 left shift with wraparound (the passes only shift by the literal
constant 1, within range, so the LLVM out-of-range poison case does not
arise). -/
def shl32 (a b : Nat) : Nat := (a * 2 ^ (b % 32)) % W

/-- An evaluation environment: the value held by each SSA register. -/
def Env : Type := Nat → Option Nat

/-- The empty environment. -/
def emptyEnv : Env := fun _ => none

/-- Update an environment at one register. -/
def updateEnv (e : Env) (i v : Nat) : Env :=
  fun j => if j = i then some v else e j

/-- Evaluate an operand: constants are truncated to i32, registers are
looked up. -/
def evalVal (e : Env) : Val → Option Nat
  | Val.const n => some (n % W)
  | Val.reg i => e i

/-- Evaluate one arithmetic instruction, extending the environment with
the register it defines; non-arithmetic instructions evaluate to none
(they do not occur in the straight-line sequences under study). -/
def evalInstr (e : Env) : Instr → Option Env
  | Instr.add i a b => do
      let x ← evalVal e a
      let y ← evalVal e b
      pure (updateEnv e i (add32 x y))
  | Instr.sub i a b => do
      let x ← evalVal e a
      let y ← evalVal e b
      pure (updateEnv e i (sub32 x y))
  | Instr.mul i a b => do
      let x ← evalVal e a
      let y ← evalVal e b
      pure (updateEnv e i (mul32 x y))
  | Instr.shl i a b => do
      let x ← evalVal e a
      let y ← evalVal e b
      pure (updateEnv e i (shl32 x y))
  | _ => none

/-- Evaluate a straight-line sequence of arithmetic instructions. -/
def evalStraight (e : Env) : List Instr → Option Env
  | [] => some e
  | i :: rest => (evalInstr e i).bind (fun e2 => evalStraight e2 rest)

/-- The value a sequence leaves in register `r`, starting from the empty
environment. -/
def resultValue (is : List Instr) (r : Nat) : Option Nat :=
  (evalStraight emptyEnv is).bind (fun e => e r)

/-! ## Instruction substitution
(src/src/passes/instruction/instruction_substitution.cpp) -/

/-- Replace uses of register `r` by register `n` in an operand
(`Value::replaceAllUsesWith`). -/
def replaceUsesVal (r n : Nat) : Val → Val
  | Val.reg i => if i = r then Val.reg n else Val.reg i
  | v => v

/-- Replace uses of register `r` by register `n` throughout an
instruction's operands. -/
def replaceUsesInstr (r n : Nat) : Instr → Instr
  | Instr.alloca i => Instr.alloca i
  | Instr.store v p => Instr.store (replaceUsesVal r n v) (replaceUsesVal r n p)
  | Instr.load i p => Instr.load i (replaceUsesVal r n p)
  | Instr.icmpEq i a b => Instr.icmpEq i (replaceUsesVal r n a) (replaceUsesVal r n b)
  | Instr.add i a b => Instr.add i (replaceUsesVal r n a) (replaceUsesVal r n b)
  | Instr.sub i a b => Instr.sub i (replaceUsesVal r n a) (replaceUsesVal r n b)
  | Instr.mul i a b => Instr.mul i (replaceUsesVal r n a) (replaceUsesVal r n b)
  | Instr.shl i a b => Instr.shl i (replaceUsesVal r n a) (replaceUsesVal r n b)
  | Instr.br t => Instr.br t
  | Instr.condbr v a b => Instr.condbr (replaceUsesVal r n v) a b
  | Instr.switch v df cs => Instr.switch (replaceUsesVal r n v) df cs
  | Instr.ret v => Instr.ret (replaceUsesVal r n v)

/-- The replacement sequence InstructionSubstitutionPass::substituteInstruction
builds for one instruction (`none` when the instruction is not an add,
sub or mul): the new instructions inserted before the original, and the
id of the final instruction, whose result replaces the original's.
`CreateNeg(b)` is emitted as `sub 0, b`.  The mul arm is applied to EVERY
mul, with no check on the multiplier operand, exactly as in the source. -/
def substOne (I : Instr) (fresh : Nat) : Option (List Instr × Nat) :=
  match I with
  | Instr.add _ a b =>
      some ([Instr.sub fresh (Val.const 0) b,
             Instr.sub (fresh + 1) a (Val.reg fresh)], fresh + 1)
  | Instr.sub _ a b =>
      some ([Instr.sub fresh (Val.const 0) b,
             Instr.add (fresh + 1) a (Val.reg fresh)], fresh + 1)
  | Instr.mul _ a _ =>
      some ([Instr.shl fresh a (Val.const 1),
             Instr.add (fresh + 1) (Val.reg fresh) a], fresh + 1)
  | _ => none

/-- Substitution at the block level: the replacement sequence is inserted
where the original instruction stood, every use of the original result is
redirected (`replaceAllUsesWith`) to the final instruction of the
sequence, and the original instruction is erased. -/
def substituteAt (pre : List Instr) (I : Instr) (post : List Instr)
    (fresh : Nat) : List Instr :=
  match I.defId, substOne I fresh with
  | some r, some (repl, newId) =>
      pre.map (replaceUsesInstr r newId) ++ repl ++
        post.map (replaceUsesInstr r newId)
  | _, _ => pre ++ [I] ++ post

/-! ## String encryption (src/src/passes/data/string_encryption.cpp) -/

/-- A global constant's initializer: either a constant byte array
(`ConstantDataArray`, each element a byte) or some other constant. -/
inductive ConstInit where
  | dataArray : List Nat → ConstInit
  | other : ConstInit
deriving DecidableEq

/-- The per-byte transform of StringEncryptionPass::createEncryptedString:
the element is read, truncated to `uint8_t`, and XORed with the key
0x42. -/
def encByte (b : Nat) : Nat := (b % 256) ^^^ 0x42

/-- StringEncryptionPass::createEncryptedString: a constant data array is
replaced by the array of its XOR-0x42-transformed bytes; any other
constant is returned unchanged. -/
def createEncryptedString : ConstInit → ConstInit
  | ConstInit.dataArray bs => ConstInit.dataArray (bs.map encByte)
  | c => c

/-- StringEncryptionPass::isStringFunction: the fixed allow-list of
recognized text-handling callees. -/
def isStringFunction (name : String) : Bool :=
  name == "printf" || name == "puts" || name == "strlen" ||
  name == "strcpy" || name == "strcmp"

/-- The module-level state StringEncryption touches: global variables,
each an id paired with its stored initializer. -/
def Globals : Type := List (Nat × ConstInit)

/-- Initializer stored for global `g`. -/
def lookupInit (m : Globals) (g : Nat) : Option ConstInit :=
  (m.find? (fun p => p.1 == g)).map (fun p => p.2)

/-- StringEncryptionPass::encryptStringArgument, resolved to the global
variable `g` behind the call argument's pointer computation: the stored
initializer is replaced in place by its encrypted version
(`gv->setInitializer(encrypted)`). -/
def encryptStringArgument (m : Globals) (g : Nat) : Globals :=
  m.map (fun p => if p.1 = g then (p.1, createEncryptedString p.2) else p)

/-! ## Eligibility predicate (src/src/utils/llvm_utils.cpp) -/

/-- The facts about an LLVM function that
obfuscator::shouldObfuscateFunction consults. -/
structure FuncAttrs where
  isDeclaration : Bool
  isIntrinsic : Bool
  hasNoInline : Bool
  hasAlwaysInline : Bool
deriving DecidableEq

/-- obfuscator::shouldObfuscateFunction: skip declarations, intrinsics
and functions carrying the NoInline or AlwaysInline attribute; obfuscate
everything else. -/
def shouldObfuscateFunction (F : FuncAttrs) : Bool :=
  if F.isDeclaration || F.isIntrinsic then false
  else if F.hasNoInline || F.hasAlwaysInline then false
  else true

/-! ## Configuration (src/src/utils/config_parser.cpp) -/

/-- The configuration map of ConfigParser, keyed by strings (std::map
with unique keys, modelled as an association list looked up by first
match). -/
def Config : Type := List (String × String)

/-- ConfigParser::getValue: the stored value when the key is present,
the supplied default otherwise. -/
def getValue (cfg : Config) (key dflt : String) : String :=
  match cfg.lookup key with
  | some v => v
  | none => dflt

/-- ConfigParser::isPassEnabled: look up `<passName>.enabled` with
default "false" and compare the result with the exact string "true". -/
def isPassEnabled (cfg : Config) (passName : String) : Bool :=
  getValue cfg (passName ++ ".enabled") "false" == "true"

/-! ## Randomized selection
(BogusControlFlowPass::shouldAddBogusControlFlow and
OpaquePredicatesPass::shouldAddOpaquePredicate) -/

/-- Modelled from the spec: both passes draw from the C library rand(),
whose algorithm is not part of this repository; section 5 of the spec
requires a deterministic, seedable process-wide source whose seed is set
once before any pass runs.  Modelled as the ANSI C reference linear
congruential generator: this is the state transition. -/
def randStateNext (s : Nat) : Nat :=
  (s * 1103515245 + 12345) % 2147483648

/-- Modelled from the spec: the value rand() returns from the advanced
state (the ANSI C reference generator's output function). -/
def randValue (s : Nat) : Nat :=
  (randStateNext s / 65536) % 32768

/-- BogusControlFlowPass::shouldAddBogusControlFlow: entry blocks and
blocks with fewer than 3 instructions are rejected without consuming a
random draw; otherwise one draw is consumed and the block is selected
when the draw modulo 100 is below 50. -/
def shouldAddBogusControlFlow (s : Nat) (isEntry : Bool) (size : Nat) :
    Bool × Nat :=
  if isEntry || size < 3 then (false, s)
  else (decide (randValue s % 100 < 50), randStateNext s)

/-- OpaquePredicatesPass::shouldAddOpaquePredicate: entry blocks and
blocks with fewer than 2 instructions are rejected without consuming a
draw; otherwise the block is selected when the draw modulo 100 is below
30. -/
def shouldAddOpaquePredicate (s : Nat) (isEntry : Bool) (size : Nat) :
    Bool × Nat :=
  if isEntry || size < 2 then (false, s)
  else (decide (randValue s % 100 < 30), randStateNext s)

/-- The per-block decisions of one BogusControlFlow run over a block
list, threading the generator state; `idx = 0` marks the entry block. -/
def bcfDecisionsGo (s idx : Nat) : List BasicBlock → List Bool × Nat
  | [] => ([], s)
  | bb :: rest =>
      let p := shouldAddBogusControlFlow s (idx == 0) bb.instrs.length
      let q := bcfDecisionsGo p.2 (idx + 1) rest
      (p.1 :: q.1, q.2)

/-- The per-block decisions of one OpaquePredicateInjection run. -/
def opDecisionsGo (s idx : Nat) : List BasicBlock → List Bool × Nat
  | [] => ([], s)
  | bb :: rest =>
      let p := shouldAddOpaquePredicate s (idx == 0) bb.instrs.length
      let q := opDecisionsGo p.2 (idx + 1) rest
      (p.1 :: q.1, q.2)

/-- One run of BogusControlFlow followed by OpaquePredicateInjection on a
function: the two decision lists, and the generator state the run leaves
behind. -/
def passesRunOnce (s : Nat) (F : Func) : (List Bool × List Bool) × Nat :=
  let p := bcfDecisionsGo s 0 F.blocks
  let q := opDecisionsGo p.2 0 F.blocks
  ((p.1, q.1), q.2)

/-- Two consecutive runs with the seed set only once: the second run
continues from the generator state the first run left behind. -/
def passesRunTwice (s : Nat) (F : Func) :
    (List Bool × List Bool) × (List Bool × List Bool) :=
  let p := passesRunOnce s F
  (p.1, (passesRunOnce p.2 F).1)

/-- The data of a function the injection decisions depend on: each
block's instruction count, in program order. -/
def sizeProfile (F : Func) : List Nat :=
  F.blocks.map (fun bb => bb.instrs.length)

/-! ## Concrete test functions -/

/-- A single-block function: just a return of 42. -/
def F1ex : Func :=
  { blocks := [{ bid := 0, instrs := [Instr.ret (Val.const 42)] }] }

/-- A three-block straight-line function: entry (block 0) branches to
block 1, which branches to block 2, which returns. -/
def F3ex : Func := { blocks := [
  { bid := 0, instrs := [Instr.br 1] },
  { bid := 1, instrs := [Instr.br 2] },
  { bid := 2, instrs := [Instr.ret (Val.const 0)] } ] }

/-- A two-block function whose non-entry block 1 holds three
instructions (so it is eligible for both injection passes). -/
def F2ex : Func := { blocks := [
  { bid := 0, instrs := [Instr.br 1] },
  { bid := 1, instrs := [Instr.add 1 (Val.const 1) (Val.const 2),
                         Instr.add 2 (Val.reg 1) (Val.const 3),
                         Instr.ret (Val.reg 2)] } ] }

/-- A function different from F2ex instruction-for-instruction but with
the same per-block instruction counts. -/
def G9ex : Func := { blocks := [
  { bid := 5, instrs := [Instr.ret (Val.const 7)] },
  { bid := 6, instrs := [Instr.mul 1 (Val.const 4) (Val.const 4),
                         Instr.sub 2 (Val.reg 1) (Val.const 1),
                         Instr.ret (Val.reg 2)] } ] }

/-! ## Helper lemmas -/

/-- The BogusControlFlow decision stream depends only on the blocks'
instruction counts. -/
theorem bcfDecisionsGo_profile (bs : List BasicBlock) :
    ∀ (cs : List BasicBlock) (s idx : Nat),
      bs.map (fun bb => bb.instrs.length) = cs.map (fun bb => bb.instrs.length) →
      bcfDecisionsGo s idx bs = bcfDecisionsGo s idx cs := by
  induction bs with
  | nil =>
    intro cs s idx h
    cases cs with
    | nil => rfl
    | cons c cs2 => simp at h
  | cons b bs2 ih =>
    intro cs s idx h
    cases cs with
    | nil => simp at h
    | cons c cs2 =>
      simp only [List.map_cons, List.cons.injEq] at h
      simp only [bcfDecisionsGo, h.1, ih cs2 _ _ h.2]

/-- The OpaquePredicateInjection decision stream depends only on the
blocks' instruction counts. -/
theorem opDecisionsGo_profile (bs : List BasicBlock) :
    ∀ (cs : List BasicBlock) (s idx : Nat),
      bs.map (fun bb => bb.instrs.length) = cs.map (fun bb => bb.instrs.length) →
      opDecisionsGo s idx bs = opDecisionsGo s idx cs := by
  induction bs with
  | nil =>
    intro cs s idx h
    cases cs with
    | nil => rfl
    | cons c cs2 => simp at h
  | cons b bs2 ih =>
    intro cs s idx h
    cases cs with
    | nil => simp at h
    | cons c cs2 =>
      simp only [List.map_cons, List.cons.injEq] at h
      simp only [opDecisionsGo, h.1, ih cs2 _ _ h.2]

/-- Looking up a global after encryptStringArgument yields the encrypted
form of what was stored before. -/
theorem lookupInit_encryptStringArgument (m : Globals) (g : Nat) :
    lookupInit (encryptStringArgument m g) g
      = (lookupInit m g).map createEncryptedString := by
  induction m with
  | nil => rfl
  | cons p rest ih =>
    by_cases h : p.1 = g
    · simp [lookupInit, encryptStringArgument, List.find?_cons, h]
    · simp only [lookupInit, encryptStringArgument, List.map_cons] at *
      rw [if_neg h]
      rw [List.find?_cons_of_neg, List.find?_cons_of_neg]
      · exact ih
      · simp [h]
      · simp [h]

/-- One encryption step on a byte below 256 is plain XOR with 0x42. -/
theorem encByte_eq_xor {b : Nat} (h : b < 256) : encByte b = b ^^^ 0x42 := by
  unfold encByte
  rw [Nat.mod_eq_of_lt h]

/-- Applying the byte transform twice recovers a byte below 256. -/
theorem encByte_involution {b : Nat} (h : b < 256) : encByte (encByte b) = b := by
  rw [encByte_eq_xor h]
  have hlt : b ^^^ 0x42 < 256 := by
    have h8 : b < 2 ^ 8 := by omega
    have h42 : (0x42 : Nat) < 2 ^ 8 := by decide
    have := Nat.xor_lt_two_pow h8 h42
    omega
  rw [encByte_eq_xor hlt, Nat.xor_assoc, Nat.xor_self, Nat.xor_zero]

/-! ## Claim theorems -/

/-- C7: for every function with at most one basic block, Flattening's
runOnFunction reports no modification and returns the function unchanged:
no state variable is allocated, no dispatcher block is created, and no
block is restructured. -/
theorem flattening_skips_small_functions (F : Func)
    (h : F.blocks.length ≤ 1) : flatteningRunOnFunction F = (false, F) := by
  simp [flatteningRunOnFunction, h]

/-- Witness for C7: the single-block function F1ex is left untouched. -/
theorem flattening_skips_small_functions_witness :
    F1ex.blocks.length ≤ 1 ∧ flatteningRunOnFunction F1ex = (false, F1ex) :=
  ⟨by decide, flattening_skips_small_functions F1ex (by decide)⟩

/-- C1 (failing evaluation): flattening the three-block function F3ex
relocates block 1, whose original successor is block 2; afterwards block
1 ends with a store of state number 1 — its OWN state — and a branch to
the dispatcher (block 3), and the dispatcher's switch sends state 1 back
to block 1 itself, not to block 2.  This refutes the claim that every
relocated block stores the state number of its original successor so
that control reaches that successor through the dispatch table. -/
theorem flattening_stores_own_state_not_successor :
    (findBlock (flatteningRunOnFunction F3ex).2 1).map
        (fun bb => storedStateBeforeBr bb 3) = some (some 1)
    ∧ switchTargetFor (flatteningRunOnFunction F3ex).2 3 1 = some 1
    ∧ (findBlock F3ex 1).map blockSuccessors = some [2]
    ∧ (1 : Nat) ≠ 2 :=
  ⟨rfl, rfl, rfl, by decide⟩

/-- C2 (failing evaluation): BogusControlFlow's injection into the
eligible non-entry block 1 of F2ex appends its comparison and conditional
branch AFTER the block's existing return (the builder's insertion point
is the block's end), leaving the block with two terminator instructions
instead of exactly one. -/
theorem bogus_injection_leaves_two_terminators :
    (findBlock (addBogusControlFlow F2ex 1) 1).map countTerminators = some 2
    ∧ (2 : Nat) ≠ 1 :=
  ⟨rfl, by decide⟩

/-- C3 (failing evaluation): the conditional branch BogusControlFlow
appends to block 1 of F2ex has the newly created bogus block (id 2, the
fresh block id) as its TRUE arm and the original block itself as its
false arm, and its guard compares 0 with 0 and so evaluates to true;
hence the branch transfers control to the bogus block on every
execution, refuting the claim that the false arm targets the bogus
sibling and that the sibling is never executed. -/
theorem bogus_branch_true_arm_is_bogus_block :
    (findBlock (addBogusControlFlow F2ex 1) 1).map injectedBranchInfo
        = some (some (2, 1, true))
    ∧ maxBid F2ex + 1 = 2
    ∧ (findBlock (addBogusControlFlow F2ex 1) 2).map (fun bb => bb.bid) = some 2
    ∧ condbrTakenTarget true 2 1 = 2 :=
  ⟨rfl, rfl, rfl, rfl⟩

/-- C4: substituting an add instruction r = a + b inserts the sequence
computing a - (-b) in its place, redirects every use of r to the final
instruction of that sequence (register f+1), removes the original add,
and the replacement leaves in register f+1 exactly the value the
original add left in r, for ALL operand values under the i32 wraparound
(mod 2^32) semantics, including the minimum and maximum representable
integers. -/
theorem add_substitution_correct (a b r f : Nat) (pre post : List Instr) :
    substituteAt pre (Instr.add r (Val.const a) (Val.const b)) post f
      = pre.map (replaceUsesInstr r (f + 1)) ++
        [Instr.sub f (Val.const 0) (Val.const b),
         Instr.sub (f + 1) (Val.const a) (Val.reg f)] ++
        post.map (replaceUsesInstr r (f + 1))
    ∧ replaceUsesVal r (f + 1) (Val.reg r) = Val.reg (f + 1)
    ∧ resultValue [Instr.sub f (Val.const 0) (Val.const b),
                   Instr.sub (f + 1) (Val.const a) (Val.reg f)] (f + 1)
        = resultValue [Instr.add r (Val.const a) (Val.const b)] r := by
  refine ⟨rfl, by simp [replaceUsesVal], ?_⟩
  have hW : 0 < W := by decide
  have hbW : b % W < W := Nat.mod_lt _ hW
  have haW : a % W < W := Nat.mod_lt _ hW
  simp only [resultValue, evalStraight, evalInstr, evalVal, Option.bind,
    updateEnv, emptyEnv, bind, Option.some.injEq, if_pos, ite_true,
    eq_self_iff_true]
  simp only [sub32, add32, W] at *
  omega

/-- C5 (failing evaluation): the multiply substitution is applied to the
instruction r = 1 * 2, whose multiplier operand is the literal 2, not 3
— the pass substitutes every multiply unconditionally — and the
replacement (1 << 1) + 1 computes 3 while the original multiply computes
2, so the replacement is not equivalent. -/
theorem mul_substitution_unconditional_and_wrong :
    substOne (Instr.mul 0 (Val.const 1) (Val.const 2)) 1
      = some ([Instr.shl 1 (Val.const 1) (Val.const 1),
               Instr.add 2 (Val.reg 1) (Val.const 1)], 2)
    ∧ resultValue [Instr.shl 1 (Val.const 1) (Val.const 1),
                   Instr.add 2 (Val.reg 1) (Val.const 1)] 2 = some 3
    ∧ resultValue [Instr.mul 0 (Val.const 1) (Val.const 2)] 0 = some 2
    ∧ (3 : Nat) ≠ 2 :=
  ⟨rfl, rfl, rfl, by decide⟩

/-- C6: when StringEncryption rewrites the constant byte array behind a
recognized call argument, the stored initializer afterwards is exactly
the original bytes XORed with 0x42, byte for byte, and applying the same
XOR-0x42 transform to the encrypted array recovers the original array
(the transform is an involution). -/
theorem string_encryption_xor_involution (m : Globals) (g : Nat)
    (bs : List Nat) (hm : lookupInit m g = some (ConstInit.dataArray bs))
    (hb : ∀ b ∈ bs, b < 256) :
    lookupInit (encryptStringArgument m g) g
      = some (ConstInit.dataArray (bs.map (fun b => b ^^^ 0x42)))
    ∧ createEncryptedString (createEncryptedString (ConstInit.dataArray bs))
      = ConstInit.dataArray bs := by
  have hmap : bs.map encByte = bs.map (fun b => b ^^^ 0x42) :=
    List.map_congr_left (fun b hbmem => encByte_eq_xor (hb b hbmem))
  constructor
  · rw [lookupInit_encryptStringArgument, hm]
    simp [createEncryptedString, hmap]
  · simp only [createEncryptedString, List.map_map, ConstInit.dataArray.injEq]
    calc bs.map (encByte ∘ encByte)
        = bs.map id := List.map_congr_left
          (fun b hbmem => encByte_involution (hb b hbmem))
      _ = bs := List.map_id bs

/-- Witness for C6: the two-byte array [72, 105] behind global 0. -/
theorem string_encryption_xor_involution_witness :
    lookupInit [(0, ConstInit.dataArray [72, 105])] 0
        = some (ConstInit.dataArray [72, 105])
    ∧ (∀ b ∈ [72, 105], b < 256)
    ∧ (lookupInit (encryptStringArgument [(0, ConstInit.dataArray [72, 105])] 0) 0
        = some (ConstInit.dataArray ([72, 105].map (fun b => b ^^^ 0x42)))
      ∧ createEncryptedString (createEncryptedString (ConstInit.dataArray [72, 105]))
        = ConstInit.dataArray [72, 105]) :=
  ⟨rfl, by decide,
    string_encryption_xor_involution [(0, ConstInit.dataArray [72, 105])] 0
      [72, 105] rfl (by decide)⟩

/-- C8: the eligibility predicate shouldObfuscateFunction returns false
exactly for functions that are declarations, intrinsics, or carry the
NoInline or AlwaysInline attribute, and true for every other function. -/
theorem shouldObfuscateFunction_false_iff (F : FuncAttrs) :
    shouldObfuscateFunction F = false ↔
      (F.isDeclaration = true ∨ F.isIntrinsic = true ∨
       F.hasNoInline = true ∨ F.hasAlwaysInline = true) := by
  rcases F with ⟨d, i, n, al⟩
  cases d <;> cases i <;> cases n <;> cases al <;>
    simp [shouldObfuscateFunction]

/-- C10: isPassEnabled returns true exactly when the key
`<passName>.enabled` is present in the configuration with value exactly
the string "true"; in particular with the empty configuration every pass
is disabled. -/
theorem isPassEnabled_iff_exact_true (cfg : Config) (p : String) :
    (isPassEnabled cfg p = true ↔
      cfg.lookup (p ++ ".enabled") = some "true")
    ∧ isPassEnabled [] p = false := by
  constructor
  · unfold isPassEnabled getValue
    cases h : List.lookup (p ++ ".enabled") cfg with
    | none => simp [h]
    | some v => simp [h]
  · simp [isPassEnabled, getValue, List.lookup]

/-- C9 (counterexample): with the generator seeded once (state 1) before
any pass runs, running BogusControlFlow and OpaquePredicateInjection on
F2ex and then running them again produces DIFFERENT per-block injection
decisions: the generator state advances during the first run, so the
second run draws different values (the opaque-predicate decision for
block 1 flips from false to true). -/
theorem injection_decisions_differ_across_runs :
    (passesRunTwice 1 F2ex).1 ≠ (passesRunTwice 1 F2ex).2 := by decide

/-- C9 (amended): the injection decisions of one combined run are a
deterministic function of the generator state it starts from and the
blocks' instruction counts alone; hence two runs each begun from the
same seed state on the same input (or on any inputs with equal size
profiles) make identical per-block decisions. -/
theorem injection_decisions_determined_by_seed_and_sizes
    (s : Nat) (F G : Func) (h : sizeProfile F = sizeProfile G) :
    passesRunOnce s F = passesRunOnce s G := by
  unfold passesRunOnce
  unfold sizeProfile at h
  have h1 := bcfDecisionsGo_profile F.blocks G.blocks s 0 h
  have h2 := fun t => opDecisionsGo_profile F.blocks G.blocks t 0 h
  simp only [h1, h2]

/-- Witness for the amended C9: F2ex and G9ex share a size profile, and
from the same seed state 1 the runs decide identically. -/
theorem injection_decisions_determined_witness :
    sizeProfile F2ex = sizeProfile G9ex
    ∧ passesRunOnce 1 F2ex = passesRunOnce 1 G9ex :=
  ⟨rfl, injection_decisions_determined_by_seed_and_sizes 1 F2ex G9ex rfl⟩

end Obf
